import Mathlib

/-!
Shallow embedding of the CGI-TPC3 lighting/camera core.

The GLSL shading stage (shader.frag / gouraud.vert / phong shaders) and the
JavaScript application code (app.js and its variants) are translated into
Lean definitions over the real numbers; GLSL float arithmetic is modelled by
exact real arithmetic, GLSL builtins (dot, normalize, reflect, cos, pow,
radians) by their mathematical definitions.
-/

noncomputable section

/-- A 3-component vector (GLSL vec3), with real components. -/
structure Vec3 where
  x : ℝ
  y : ℝ
  z : ℝ

/-- A 4-component vector (GLSL vec4), with real components. -/
structure Vec4 where
  x : ℝ
  y : ℝ
  z : ℝ
  w : ℝ

def vzero : Vec3 := ⟨0, 0, 0⟩

instance : Zero Vec3 := ⟨vzero⟩

def add3 (a b : Vec3) : Vec3 := ⟨a.x + b.x, a.y + b.y, a.z + b.z⟩

instance : Add Vec3 := ⟨add3⟩

def sub3 (a b : Vec3) : Vec3 := ⟨a.x - b.x, a.y - b.y, a.z - b.z⟩

def neg3 (a : Vec3) : Vec3 := ⟨-a.x, -a.y, -a.z⟩

/-- Scalar multiplication (GLSL float * vec3). -/
def smul3 (r : ℝ) (a : Vec3) : Vec3 := ⟨r * a.x, r * a.y, r * a.z⟩

/-- Componentwise product (GLSL vec3 * vec3). -/
def mul3 (a b : Vec3) : Vec3 := ⟨a.x * b.x, a.y * b.y, a.z * b.z⟩

/-- Componentwise division by a scalar (GLSL vec3 / float). -/
def div3 (a : Vec3) (r : ℝ) : Vec3 := ⟨a.x / r, a.y / r, a.z / r⟩

/-- GLSL dot for vec3. -/
def dot3 (a b : Vec3) : ℝ := a.x * b.x + a.y * b.y + a.z * b.z

/-- GLSL cross for vec3. -/
def cross3 (a b : Vec3) : Vec3 :=
  ⟨a.y * b.z - a.z * b.y, a.z * b.x - a.x * b.z, a.x * b.y - a.y * b.x⟩

/-- GLSL length for vec3. -/
def length3 (a : Vec3) : ℝ := Real.sqrt (dot3 a a)

/-- GLSL normalize for vec3: v / length(v). -/
def normalize3 (a : Vec3) : Vec3 := div3 a (length3 a)

/-- GLSL reflect(I, N) = I - 2 * dot(N, I) * N. -/
def reflect3 (I N : Vec3) : Vec3 := sub3 I (smul3 (2 * dot3 N I) N)

/-- GLSL radians: degrees to radians. -/
def radians (d : ℝ) : ℝ := d * (Real.pi / 180)

/-- The xyz swizzle of a vec4. -/
def xyz3 (v : Vec4) : Vec3 := ⟨v.x, v.y, v.z⟩

theorem add3_assoc (a b c : Vec3) : add3 (add3 a b) c = add3 a (add3 b c) := by
  simp [add3, Vec3.mk.injEq]
  refine ⟨by ring, by ring, by ring⟩

theorem add3_comm (a b : Vec3) : add3 a b = add3 b a := by
  simp [add3, Vec3.mk.injEq]
  refine ⟨by ring, by ring, by ring⟩

theorem zero_add3 (a : Vec3) : add3 vzero a = a := by
  simp [add3, vzero]

theorem add3_zero (a : Vec3) : add3 a vzero = a := by
  simp [add3, vzero]

instance : AddCommMonoid Vec3 where
  add_assoc := add3_assoc
  zero_add := zero_add3
  add_zero := add3_zero
  add_comm := add3_comm
  nsmul := nsmulRec

/-!
## Shader-side data model

Uniform arrays `u_light_*[i]` of the shading programs are modelled by a
`LightSlot` per index, the `u_material` struct by `MaterialInfo`.
-/

/-- One slot of the shader uniform light arrays (`u_light_*[i]`). -/
structure LightSlot where
  ambient : Vec3
  diffuse : Vec3
  specular : Vec3
  position : Vec4
  axis : Vec3
  aperture : ℝ
  cutoff : ℝ
  type : ℤ
  enabled : ℤ

/-- The `MaterialInfo` uniform struct of the shaders. -/
structure MaterialInfo where
  Ka : Vec3
  Kd : Vec3
  Ks : Vec3
  shininess : ℝ

/-- Direction-to-light `L` computed per light in `phongLighting`
(shader.frag lines 48-55): directional lights use `normalize(-position.xyz)`,
point and spot lights use `normalize(position.xyz - position)`. -/
def lightL (slot : LightSlot) (position : Vec3) : Vec3 :=
  if slot.type = 1 then normalize3 (neg3 (xyz3 slot.position))
  else normalize3 (sub3 (xyz3 slot.position) position)

/-- Spotlight attenuation factor computed per light in `phongLighting`
(shader.frag lines 57-70): 1 for non-spotlights; for spotlights,
`pow(max(0, cosAlpha), cutoff)` inside the cone (boundary inclusive)
and 0 outside. -/
def spotAttenuation (slot : LightSlot) (position : Vec3) : ℝ :=
  if slot.type = 2 then
    let toLight := normalize3 (sub3 (xyz3 slot.position) position)
    let lightDir := normalize3 (neg3 slot.axis)
    let cosAlpha := dot3 toLight lightDir
    let cosAperture := Real.cos (radians (slot.aperture / 2))
    if cosAperture ≤ cosAlpha then (max 0 cosAlpha) ^ slot.cutoff else 0
  else 1

/-- The contribution of one enabled light slot to the accumulated color
(shader.frag lines 42-91): ambient, diffuse and specular terms are computed
and scaled by the spotlight attenuation, but only when the attenuation is
strictly positive; otherwise the light contributes nothing. -/
def lightContribution (slot : LightSlot) (position normal : Vec3)
    (material : MaterialInfo) : Vec3 :=
  let L := lightL slot position
  let s := spotAttenuation slot position
  if 0 < s then
    let ambient := mul3 (div3 material.Ka 255) (div3 slot.ambient 255)
    let NdotL := max 0 (dot3 normal L)
    let diffuse := smul3 NdotL (mul3 (div3 material.Kd 255) (div3 slot.diffuse 255))
    let specular :=
      if 0 < NdotL then
        let V := normalize3 (neg3 position)
        let R := reflect3 (neg3 L) normal
        let RdotV := max 0 (dot3 R V)
        smul3 (RdotV ^ material.shininess)
          (mul3 (div3 material.Ks 255) (div3 slot.specular 255))
      else vzero
    smul3 s (add3 ambient (add3 diffuse specular))
  else vzero

/-- The accumulation loop of `phongLighting`: index `i` runs over the given
slots; the loop breaks when `i >= u_n_lights` and skips slots with
`enabled == 0` (shader.frag lines 38-41). -/
def phongAux (nLights : ℤ) (position normal : Vec3) (material : MaterialInfo) :
    ℕ → List LightSlot → Vec3
  | _, [] => vzero
  | i, slot :: rest =>
      if nLights ≤ (i : ℤ) then vzero
      else
        add3 (if slot.enabled = 0 then vzero
              else lightContribution slot position normal material)
          (phongAux nLights position normal material (i + 1) rest)

/-- `phongLighting` of the shaders: the loop of `phongAux` started at index 0
over the program's uniform light array (8 slots in shader.frag and the
Phong fragment shader, 3 slots in gouraud.vert). -/
def phongLighting (lights : List LightSlot) (nLights : ℤ)
    (position normal : Vec3) (material : MaterialInfo) : Vec3 :=
  phongAux nLights position normal material 0 lights

/-!
## CPU-side data model and uniform upload

`Light` models one element of the JavaScript `lights` array; `uploadSlot`
models one iteration of `uploadLights` in app.js, which converts a CPU light
into the values written to the shader uniform slots.
-/

/-- One element of the JavaScript `lights` array (app.js lines 52-66). -/
structure Light where
  enabled : Bool
  type : ℤ
  position : Vec4
  axis : Vec3
  aperture : ℝ
  cutoff : ℝ
  ambient : Vec3
  diffuse : Vec3
  specular : Vec3

/-- A default light used only as the out-of-range fallback of list lookups. -/
def defLight : Light :=
  ⟨false, 0, ⟨0, 0, 0, 0⟩, ⟨0, 0, 0⟩, 0, 0, vzero, vzero, vzero⟩

/-- The shader slot produced for one light by `uploadLights` in app.js
(lines 367-414): the position's w component is recomputed from the type
(0 for directional, 1 otherwise) and the enabled flag becomes the integer
0 or 1. -/
def uploadSlot (l : Light) : LightSlot :=
  { ambient := l.ambient
    diffuse := l.diffuse
    specular := l.specular
    position := ⟨l.position.x, l.position.y, l.position.z,
                 if l.type = 1 then 0 else 1⟩
    axis := l.axis
    aperture := l.aperture
    cutoff := l.cutoff
    type := l.type
    enabled := if l.enabled then 1 else 0 }

/-- The loop of `uploadLights` that computes `u_n_lights` (app.js lines
333-339): starting from 0, each enabled light at index `i` sets the count
to `i + 1`, so the result is the highest enabled index plus one. -/
def nLightsAux : List Light → ℕ → ℤ → ℤ
  | [], _, acc => acc
  | l :: ls, i, acc => nLightsAux ls (i + 1) (if l.enabled then (i : ℤ) + 1 else acc)

/-- The `u_n_lights` value uploaded by app.js for a given lights array. -/
def computeNLights (ls : List Light) : ℤ := nLightsAux ls 0 0

/-- Replacing a light's position vector (the effect of the GUI position
sliders, including the w slider exposed at app.js line 246). -/
def setPosition (l : Light) (p : Vec4) : Light := { l with position := p }

/-!
## Coordinate-space transformation of lights (part_004)
-/

/-- A 4x4 matrix given by rows; `mulVec4` is the matrix-vector product used
by the MV library's `mult(M, v)`. -/
structure Mat4 where
  r0 : Vec4
  r1 : Vec4
  r2 : Vec4
  r3 : Vec4

def dot4 (a b : Vec4) : ℝ := a.x * b.x + a.y * b.y + a.z * b.z + a.w * b.w

def mulVec4 (M : Mat4) (v : Vec4) : Vec4 :=
  ⟨dot4 M.r0 v, dot4 M.r1 v, dot4 M.r2 v, dot4 M.r3 v⟩

/-- The upper-left 3x3 block of a matrix applied to a vec3 (the purely
linear, translation-free part of the transform). -/
def linMul (M : Mat4) (v : Vec3) : Vec3 :=
  ⟨M.r0.x * v.x + M.r0.y * v.y + M.r0.z * v.z,
   M.r1.x * v.x + M.r1.y * v.y + M.r1.z * v.z,
   M.r2.x * v.x + M.r2.y * v.y + M.r2.z * v.z⟩

/-- The translation column of a matrix (entries (0,3), (1,3), (2,3)). -/
def transCol (M : Mat4) : Vec3 := ⟨M.r0.w, M.r1.w, M.r2.w⟩

/-- The light-space mode toggle `options.lightCoords` of part_004. -/
inductive LightMode where
  | camera : LightMode
  | world : LightMode
deriving DecidableEq

/-- `getLightCameraSpace` of part_004 (lines 614-654), with the view matrix
(computed there by `lookAt`) taken as a parameter: in Camera mode the
authored values are used directly as eye-space values, except that a
spotlight is forced to the camera origin pointing straight ahead; in World
mode the position is multiplied by the view matrix as a vec4 and the axis is
multiplied with w = 0. -/
def getLightCameraSpace (view : Mat4) (mode : LightMode) (l : Light) :
    Vec4 × Vec3 :=
  if mode = LightMode.camera then
    if l.type = 2 then (⟨0, 0, 0, 1⟩, ⟨0, 0, -1⟩)
    else (l.position, l.axis)
  else
    let lpEye := mulVec4 view l.position
    let axisEye := mulVec4 view ⟨l.axis.x, l.axis.y, l.axis.z, 0⟩
    (⟨lpEye.x, lpEye.y, lpEye.z, l.position.w⟩, ⟨axisEye.x, axisEye.y, axisEye.z⟩)

/-- The position uniform uploaded by `uploadLights` of part_004 (lines
721-737): xyz from `getLightCameraSpace`, w recomputed from the type. -/
def uploadedPositionP4 (view : Mat4) (mode : LightMode) (l : Light) : Vec4 :=
  let posEye := (getLightCameraSpace view mode l).1
  ⟨posEye.x, posEye.y, posEye.z, if l.type = 1 then 0 else 1⟩

/-!
## Camera model and mouse orbit (part_004)
-/

/-- The camera state of the application (eye/at/up in world coordinates,
plus the perspective parameters). -/
structure Camera where
  eye : Vec3
  atPt : Vec3
  up : Vec3
  fovy : ℝ
  near : ℝ
  far : ℝ

/-- Modelled from the spec: the world-space rotation applied by the vector
library's `rotate(angle, axis)` matrix to a direction vector, i.e. the
Rodrigues rotation by `angle` degrees about the normalized axis
(`R v = cos a * v + sin a * (k x v) + (1 - cos a) * (k . v) * k`).
The library source (libs/MV.js) is not part of the provided sources; the
spec describes it as the rotation about the given world-space axis. -/
def rotateApply (angle : ℝ) (axis v : Vec3) : Vec3 :=
  let k := normalize3 axis
  let c := Real.cos (radians angle)
  let s := Real.sin (radians angle)
  add3 (smul3 c v) (add3 (smul3 s (cross3 k v)) (smul3 ((1 - c) * dot3 k v) k))

/-- The rotation angle of one orbit step (part_004 lines 449-450):
`0.5 * length(vec2(dx, dy))` degrees. -/
def orbitAngle (dx dy : ℝ) : ℝ := 0.5 * Real.sqrt (dx * dx + dy * dy)

/-- The world-space rotation axis of one orbit step (part_004 lines
452-467): the camera-space axis `(-dy, -dx, 0)` expressed in the world
basis (right, true up, forward) and normalized. -/
def orbitAxisWorld (cam : Camera) (dx dy : ℝ) : Vec3 :=
  let axisCam : Vec3 := ⟨-dy, -dx, 0⟩
  let upN := normalize3 cam.up
  let forward := normalize3 (sub3 cam.atPt cam.eye)
  let right := normalize3 (cross3 forward upN)
  let trueUp := cross3 right forward
  normalize3 (add3 (add3 (smul3 axisCam.x right) (smul3 axisCam.y trueUp))
    (smul3 (-axisCam.z) forward))

/-- `rotateCameraWithMouse` of part_004 (lines 445-495): an early return
when both deltas are zero; otherwise `eye - at` and `up` are rotated by the
`rotate(ang, axisWorld)` matrix and the eye is rebuilt from `at`. -/
def rotateCameraWithMouse (cam : Camera) (dx dy : ℝ) : Camera :=
  if dx = 0 ∧ dy = 0 then cam
  else
    let ang := orbitAngle dx dy
    let axisWorld := orbitAxisWorld cam dx dy
    let eyeAt := rotateApply ang axisWorld (sub3 cam.eye cam.atPt)
    let up2 := rotateApply ang axisWorld cam.up
    { cam with eye := add3 cam.atPt eyeAt, up := up2 }

/-- The near-plane clamping performed by `updateProjection` of part_004
(lines 398-402): `near` is raised to 0.01 and then lowered to
`far - 0.01` whenever it reaches or exceeds it; `far` is untouched. -/
def clampNear (near far : ℝ) : ℝ :=
  let n1 := if near < 0.01 then 0.01 else near
  if far - 0.01 ≤ n1 then far - 0.01 else n1

/-!
## The two shading paths of the two-program variant (part_004)
-/

/-- The vertex color computed by the Gouraud path for given CPU lights: the
Gouraud vertex shader (gouraud.vert) declares `MAX_LIGHTS = 3`, so its
uniform arrays hold only the first three uploaded slots and its
`phongLighting` loop runs over them. -/
def gouraudPathColor (ls : List Light) (position normal : Vec3)
    (material : MaterialInfo) : Vec3 :=
  phongLighting (List.take 3 (List.map uploadSlot ls)) (computeNLights ls)
    position normal material

/-- The fragment color computed by the Phong path at the same point: the
Phong fragment shader (part_001) declares `MAX_LIGHTS = 8`, so its
`phongLighting` loop runs over all eight uploaded slots. -/
def phongPathColor (ls : List Light) (position normal : Vec3)
    (material : MaterialInfo) : Vec3 :=
  phongLighting (List.map uploadSlot ls) (computeNLights ls)
    position normal material

/-- A default shader slot used only as the out-of-range fallback of list
lookups. -/
def defSlot : LightSlot := uploadSlot defLight

/-!
## Helper lemmas
-/

theorem vzero_eq_zero : vzero = (0 : Vec3) := rfl

theorem add3_eq_add (a b : Vec3) : add3 a b = a + b := rfl

theorem dot3_self_nonneg (v : Vec3) : 0 ≤ dot3 v v := by
  simp only [dot3]
  nlinarith [mul_self_nonneg v.x, mul_self_nonneg v.y, mul_self_nonneg v.z]

theorem eq_vzero_of_dot3_self (v : Vec3) (h : dot3 v v = 0) : v = vzero := by
  simp only [dot3] at h
  have hx : v.x = 0 := by
    nlinarith [mul_self_nonneg v.x, mul_self_nonneg v.y, mul_self_nonneg v.z]
  have hy : v.y = 0 := by
    nlinarith [mul_self_nonneg v.x, mul_self_nonneg v.y, mul_self_nonneg v.z]
  have hz : v.z = 0 := by
    nlinarith [mul_self_nonneg v.x, mul_self_nonneg v.y, mul_self_nonneg v.z]
  cases v
  simp_all [vzero]

theorem normalize3_dot_self (v : Vec3) (hv : v ≠ vzero) :
    dot3 (normalize3 v) (normalize3 v) = 1 := by
  have hd0 : dot3 v v ≠ 0 := fun h => hv (eq_vzero_of_dot3_self v h)
  have hdp : 0 < dot3 v v := lt_of_le_of_ne (dot3_self_nonneg v) (Ne.symm hd0)
  have hs : Real.sqrt (dot3 v v) ≠ 0 := by
    rw [Real.sqrt_ne_zero (le_of_lt hdp)]
    exact hd0
  have hss : Real.sqrt (dot3 v v) * Real.sqrt (dot3 v v) = dot3 v v :=
    Real.mul_self_sqrt (dot3_self_nonneg v)
  simp only [normalize3, div3, length3, dot3] at *
  field_simp

theorem normalize3_dot_self_le_one (v : Vec3) :
    dot3 (normalize3 v) (normalize3 v) ≤ 1 := by
  by_cases hv : v = vzero
  · subst hv
    simp [normalize3, div3, length3, dot3, vzero]
  · rw [normalize3_dot_self v hv]

theorem dot3_le_one (a b : Vec3) (ha : dot3 a a ≤ 1) (hb : dot3 b b ≤ 1) :
    dot3 a b ≤ 1 := by
  simp only [dot3] at *
  nlinarith [sq_nonneg (a.x - b.x), sq_nonneg (a.y - b.y), sq_nonneg (a.z - b.z)]

theorem rotateApply_dot_self (angle : ℝ) (axis v : Vec3)
    (hk : dot3 (normalize3 axis) (normalize3 axis) = 1) :
    dot3 (rotateApply angle axis v) (rotateApply angle axis v) = dot3 v v := by
  have htrig : Real.sin (radians angle) ^ 2 + Real.cos (radians angle) ^ 2 = 1 :=
    Real.sin_sq_add_cos_sq (radians angle)
  set k := normalize3 axis with hkdef
  set c := Real.cos (radians angle) with hcdef
  set s := Real.sin (radians angle) with hsdef
  simp only [rotateApply, add3, smul3, cross3, dot3] at *
  linear_combination
    (s ^ 2 * (v.x * v.x + v.y * v.y + v.z * v.z) +
      (k.x * v.x + k.y * v.y + k.z * v.z) ^ 2 * (1 - c) ^ 2) * hk +
    ((v.x * v.x + v.y * v.y + v.z * v.z) -
      (k.x * v.x + k.y * v.y + k.z * v.z) ^ 2) * htrig

theorem phongAux_eq_sum (n : ℤ) (P N : Vec3) (M : MaterialInfo) :
    ∀ (slots : List LightSlot) (i : ℕ),
      phongAux n P N M i slots =
        ∑ j ∈ Finset.range slots.length,
          (if ((i + j : ℕ) : ℤ) < n ∧ (slots.getD j defSlot).enabled ≠ 0
           then lightContribution (slots.getD j defSlot) P N M else 0) := by
  intro slots
  induction slots with
  | nil => intro i; simp [phongAux, ← vzero_eq_zero]
  | cons s rest ih =>
      intro i
      by_cases hb : n ≤ (i : ℤ)
      · rw [show phongAux n P N M i (s :: rest) = vzero from by
          simp [phongAux, hb]]
        rw [vzero_eq_zero]
        refine (Finset.sum_eq_zero fun j hj => ?_).symm
        rw [if_neg]
        rintro ⟨h1, -⟩
        have h2 : (i : ℤ) ≤ ((i + j : ℕ) : ℤ) := by push_cast; omega
        omega
      · have hi : (i : ℤ) < n := lt_of_not_le hb
        rw [show phongAux n P N M i (s :: rest) =
            add3 (if s.enabled = 0 then vzero
                  else lightContribution s P N M)
              (phongAux n P N M (i + 1) rest) from by
          simp [phongAux, hb]]
        rw [List.length_cons, Finset.sum_range_succ']
        rw [add3_eq_add, ih (i + 1)]
        have hterm :
            (if ((i + 0 : ℕ) : ℤ) < n ∧ ((s :: rest).getD 0 defSlot).enabled ≠ 0
             then lightContribution ((s :: rest).getD 0 defSlot) P N M else 0) =
            (if s.enabled = 0 then vzero else lightContribution s P N M) := by
          by_cases he : s.enabled = 0
          · rw [if_neg, if_pos he]
            · rfl
            · rintro ⟨-, h2⟩
              exact h2 (by simpa using he)
          · rw [if_pos, if_neg he]
            · simp
            · exact ⟨by simpa using hi, by simpa using he⟩
        rw [hterm]
        rw [add_comm]
        congr 1
        refine Finset.sum_congr rfl fun j hj => ?_
        have harith : i + (j + 1) = (i + 1) + j := by omega
        simp only [List.getD_cons_succ, harith]

theorem nLightsAux_cases (ls : List Light) :
    ∀ (i : ℕ) (acc : ℤ),
      nLightsAux ls i acc = acc ∨ (i : ℤ) < nLightsAux ls i acc := by
  induction ls with
  | nil => intro i acc; exact Or.inl rfl
  | cons l rest ih =>
      intro i acc
      cases hl : l.enabled
      · rcases ih (i + 1) acc with h | h
        · left
          simpa [nLightsAux, hl] using h
        · right
          simp [nLightsAux, hl]
          push_cast at h
          omega
      · rcases ih (i + 1) ((i : ℤ) + 1) with h | h
        · right
          simp only [nLightsAux, hl, if_true]
          omega
        · right
          simp only [nLightsAux, hl, if_true]
          push_cast at h
          omega

theorem lt_nLightsAux (ls : List Light) :
    ∀ (j i : ℕ) (acc : ℤ), j < ls.length →
      (ls.getD j defLight).enabled = true →
      ((i + j : ℕ) : ℤ) < nLightsAux ls i acc := by
  induction ls with
  | nil => intro j i acc hj; simp at hj
  | cons l rest ih =>
      intro j i acc hj he
      match j with
      | 0 =>
          have hl : l.enabled = true := by simpa using he
          simp only [nLightsAux, hl, if_true]
          rcases nLightsAux_cases rest (i + 1) ((i : ℤ) + 1) with h | h
          · rw [h]; push_cast; omega
          · push_cast at h ⊢; omega
      | j' + 1 =>
          have hj2 : j' < rest.length := by simpa using hj
          have he2 : (rest.getD j' defLight).enabled = true := by
            simpa using he
          have h := ih j' (i + 1) (if l.enabled then (i : ℤ) + 1 else acc) hj2 he2
          simp only [nLightsAux]
          push_cast at h ⊢
          omega

theorem getD_map_uploadSlot (ls : List Light) :
    ∀ j : ℕ, j < ls.length →
      (List.map uploadSlot ls).getD j defSlot = uploadSlot (ls.getD j defLight) := by
  induction ls with
  | nil => intro j hj; simp at hj
  | cons l rest ih =>
      intro j hj
      match j with
      | 0 => simp
      | j' + 1 =>
          have hj2 : j' < rest.length := by simpa using hj
          simpa using ih j' hj2

/-!
## Claim theorems
-/

/-- Claim C1: for every Spotlight (type 2), with `L` the computed
direction-to-light, `lightDir = normalize(-axis)`,
`cosAlpha = dot(L, lightDir)` and `cosAperture = cos(radians(aperture/2))`,
the spot attenuation factor is `max(0, cosAlpha) ^ cutoff` when
`cosAperture <= cosAlpha` (boundary inclusive) and exactly 0 otherwise;
for every Point (type 0) or Directional (type 1) light it is 1. -/
theorem claim_C1_spot_factor (slot : LightSlot) (P : Vec3) :
    (slot.type = 2 →
      spotAttenuation slot P =
        (if Real.cos (radians (slot.aperture / 2)) ≤
              dot3 (lightL slot P) (normalize3 (neg3 slot.axis))
         then (max 0 (dot3 (lightL slot P) (normalize3 (neg3 slot.axis)))) ^
                slot.cutoff
         else 0)) ∧
    ((slot.type = 0 ∨ slot.type = 1) → spotAttenuation slot P = 1) := by
  constructor
  · intro h2
    have hL : lightL slot P = normalize3 (sub3 (xyz3 slot.position) P) := by
      simp [lightL, h2]
    rw [hL]
    simp [spotAttenuation, h2]
  · rintro (h | h) <;> simp [spotAttenuation, h]

/-- A concrete spotlight slot whose fragment direction lies exactly on the
cone axis, with aperture 0, so the boundary case of the cone test fires. -/
def c1SpotSlot : LightSlot :=
  { ambient := vzero, diffuse := vzero, specular := vzero,
    position := ⟨0, 0, 0, 1⟩, axis := ⟨0, 0, 1⟩,
    aperture := 0, cutoff := 10, type := 2, enabled := 1 }

/-- A concrete point-light slot. -/
def c1PointSlot : LightSlot :=
  { ambient := vzero, diffuse := vzero, specular := vzero,
    position := ⟨0, 0, 0, 1⟩, axis := ⟨0, 0, 1⟩,
    aperture := 0, cutoff := 10, type := 0, enabled := 1 }

/-- Witness for claim C1: the boundary-inclusive branch evaluates to 1 on
the axis of `c1SpotSlot`, and a point light has factor 1. -/
theorem claim_C1_witness :
    spotAttenuation c1SpotSlot ⟨0, 0, 1⟩ = 1 ∧
    spotAttenuation c1PointSlot ⟨0, 0, 1⟩ = 1 := by
  constructor
  · have h := (claim_C1_spot_factor c1SpotSlot ⟨0, 0, 1⟩).1 rfl
    rw [h]
    rw [show lightL c1SpotSlot ⟨0, 0, 1⟩ = ⟨0, 0, -1⟩ from by
      simp [lightL, c1SpotSlot, normalize3, div3, length3, dot3, sub3, xyz3]]
    rw [show normalize3 (neg3 c1SpotSlot.axis) = ⟨0, 0, -1⟩ from by
      simp [c1SpotSlot, normalize3, div3, length3, dot3, neg3]]
    simp [c1SpotSlot, dot3, radians, Real.cos_zero]
  · exact (claim_C1_spot_factor c1PointSlot ⟨0, 0, 1⟩).2 (Or.inl rfl)

/-- Claim C2: a light whose spot attenuation factor is 0 contributes exactly
zero: the ambient term is skipped along with diffuse and specular, because
the whole contribution is gated on a strictly positive factor. -/
theorem claim_C2_zero_factor_contributes_nothing (slot : LightSlot)
    (P N : Vec3) (M : MaterialInfo)
    (h : spotAttenuation slot P = 0) :
    lightContribution slot P N M = vzero := by
  simp [lightContribution, h]

/-- A concrete spotlight slot and fragment position outside its cone
(aperture 0, fragment at right angle to the axis). -/
def c2Slot : LightSlot :=
  { ambient := ⟨255, 255, 255⟩, diffuse := ⟨255, 255, 255⟩,
    specular := ⟨255, 255, 255⟩,
    position := ⟨0, 0, 0, 1⟩, axis := ⟨0, 0, -1⟩,
    aperture := 0, cutoff := 10, type := 2, enabled := 1 }

/-- A concrete material with all reflectances at full scale. -/
def cMat : MaterialInfo :=
  ⟨⟨255, 255, 255⟩, ⟨255, 255, 255⟩, ⟨255, 255, 255⟩, 1⟩

/-- Witness for claim C2: outside the cone the factor is 0 and the whole
contribution, ambient included, is the zero vector. -/
theorem claim_C2_witness :
    spotAttenuation c2Slot ⟨-1, 0, 0⟩ = 0 ∧
    lightContribution c2Slot ⟨-1, 0, 0⟩ ⟨0, 0, 1⟩ cMat = vzero := by
  have h0 : spotAttenuation c2Slot ⟨-1, 0, 0⟩ = 0 := by
    simp [spotAttenuation, c2Slot, normalize3, div3, length3, dot3, sub3,
      neg3, xyz3, radians, Real.cos_zero]
  exact ⟨h0, claim_C2_zero_factor_contributes_nothing c2Slot _ _ cMat h0⟩

/-- Claim C9: the near-plane clamping in `updateProjection` of part_004
establishes `near < far` for every edited pair of values. -/
theorem claim_C9_near_lt_far (near far : ℝ) : clampNear near far < far := by
  unfold clampNear
  by_cases h1 : far - 0.01 ≤ (if near < 0.01 then 0.01 else near)
  · simp only [h1, if_true]
    norm_num
  · simp only [h1, if_false]
    push_neg at h1
    linarith

/-- Claim C10: for cutoff >= 0 the spot attenuation factor always lies in
[0, 1]: it is 1 for non-spotlights, 0 outside the cone, and inside the cone
`max(0, cosAlpha) ^ cutoff <= 1` because `cosAlpha` is a dot product of
normalized vectors and hence at most 1; the cone factor never amplifies. -/
theorem claim_C10_factor_in_unit_interval (slot : LightSlot) (P : Vec3)
    (h : 0 ≤ slot.cutoff) :
    0 ≤ spotAttenuation slot P ∧ spotAttenuation slot P ≤ 1 := by
  unfold spotAttenuation
  by_cases h2 : slot.type = 2
  · simp only [h2, if_true]
    have hca : dot3 (normalize3 (sub3 (xyz3 slot.position) P))
        (normalize3 (neg3 slot.axis)) ≤ 1 :=
      dot3_le_one _ _ (normalize3_dot_self_le_one _) (normalize3_dot_self_le_one _)
    have hb0 : (0 : ℝ) ≤ max 0 (dot3 (normalize3 (sub3 (xyz3 slot.position) P))
        (normalize3 (neg3 slot.axis))) := le_max_left 0 _
    have hb1 : max 0 (dot3 (normalize3 (sub3 (xyz3 slot.position) P))
        (normalize3 (neg3 slot.axis))) ≤ 1 := max_le zero_le_one hca
    by_cases hcc : Real.cos (radians (slot.aperture / 2)) ≤
        dot3 (normalize3 (sub3 (xyz3 slot.position) P))
          (normalize3 (neg3 slot.axis))
    · simp only [hcc, if_true]
      exact ⟨Real.rpow_nonneg hb0 _, Real.rpow_le_one hb0 hb1 h⟩
    · simp only [hcc, if_false]
      norm_num
  · simp only [h2, if_false]
    norm_num

/-- Claim C7: the w component of the position actually uploaded for shading
is recomputed from the light's kind alone - 0 for Directional (type 1), 1
otherwise - in both upload paths (app.js and part_004), and editing the
stored position vector (including its GUI-exposed w slider) cannot change
the effective w. -/
theorem claim_C7_w_derived_from_kind (l : Light) (view : Mat4)
    (mode : LightMode) :
    (uploadSlot l).position.w = (if l.type = 1 then 0 else 1) ∧
    (uploadedPositionP4 view mode l).w = (if l.type = 1 then 0 else 1) ∧
    (∀ p : Vec4,
      (uploadSlot (setPosition l p)).position.w = (uploadSlot l).position.w) := by
  refine ⟨rfl, rfl, fun p => rfl⟩

/-- Claim C5: in World light-space mode, `getLightCameraSpace` multiplies the
authored position by the view matrix as a full homogeneous vector (keeping
the stored w, which is 1 for point/spot lights, so the translation column
applies), and multiplies the axis with w = 0, which is exactly the linear
3x3 part of the view matrix - the axis is rotated but never translated. -/
theorem claim_C5_world_mode_transform (view : Mat4) (l : Light) :
    (getLightCameraSpace view LightMode.world l).1 =
      ⟨(mulVec4 view l.position).x, (mulVec4 view l.position).y,
       (mulVec4 view l.position).z, l.position.w⟩ ∧
    (getLightCameraSpace view LightMode.world l).2 = linMul view l.axis ∧
    (l.position.w = 1 →
      xyz3 (getLightCameraSpace view LightMode.world l).1 =
        add3 (linMul view (xyz3 l.position)) (transCol view)) := by
  refine ⟨rfl, ?_, ?_⟩
  · simp only [getLightCameraSpace]
    rw [if_neg (fun h => LightMode.noConfusion h)]
    norm_num [mulVec4, dot4, linMul, Vec3.mk.injEq]
  · intro hw
    simp only [getLightCameraSpace]
    rw [if_neg (fun h => LightMode.noConfusion h)]
    norm_num [mulVec4, dot4, linMul, transCol, add3, xyz3, Vec3.mk.injEq, hw]

/-- A concrete view matrix with identity rotation and translation
(10, 20, 30). -/
def c5View : Mat4 :=
  ⟨⟨1, 0, 0, 10⟩, ⟨0, 1, 0, 20⟩, ⟨0, 0, 1, 30⟩, ⟨0, 0, 0, 1⟩⟩

/-- A concrete point light with homogeneous w = 1. -/
def c5Light : Light :=
  { enabled := true, type := 0, position := ⟨2, 3, 4, 1⟩, axis := ⟨0, 0, -1⟩,
    aperture := 10, cutoff := 10, ambient := vzero, diffuse := vzero,
    specular := vzero }

/-- Witness for claim C5: for a point light with w = 1 the World-mode
eye-space position is the linearly transformed position plus the view
translation. -/
theorem claim_C5_witness :
    c5Light.position.w = 1 ∧
    xyz3 (getLightCameraSpace c5View LightMode.world c5Light).1 =
      add3 (linMul c5View (xyz3 c5Light.position)) (transCol c5View) :=
  ⟨rfl, (claim_C5_world_mode_transform c5View c5Light).2.2 rfl⟩

/-- Claim C3: with `u_n_lights` computed by `uploadLights` as the highest
enabled index plus one, the shader's accumulated color over the uploaded
slots equals the sum of the contributions of exactly the enabled lights;
a disabled slot adds nothing, whatever its other fields hold. -/
theorem claim_C3_total_is_sum_over_enabled (ls : List Light) (P N : Vec3)
    (M : MaterialInfo) :
    phongLighting (List.map uploadSlot ls) (computeNLights ls) P N M =
      ∑ j ∈ Finset.range ls.length,
        (if (ls.getD j defLight).enabled = true
         then lightContribution (uploadSlot (ls.getD j defLight)) P N M
         else 0) := by
  unfold phongLighting computeNLights
  rw [phongAux_eq_sum]
  rw [List.length_map]
  refine Finset.sum_congr rfl fun j hj => ?_
  have hj2 : j < ls.length := Finset.mem_range.mp hj
  rw [getD_map_uploadSlot ls j hj2]
  by_cases he : (ls.getD j defLight).enabled = true
  · rw [if_pos, if_pos he]
    refine ⟨?_, ?_⟩
    · exact lt_nLightsAux ls j 0 0 hj2 he
    · simp only [uploadSlot, he]
      norm_num
  · rw [if_neg, if_neg he]
    rintro ⟨-, h2⟩
    apply h2
    have hb : (ls.getD j defLight).enabled = false := by
      cases h : (ls.getD j defLight).enabled
      · rfl
      · exact absurd h he
    simp only [uploadSlot, hb]
    norm_num

/-- Claim C6 (amended): for a Directional light (type 1) the direction `L`
and the spot factor are independent of the surface position `P`, and the
whole contribution is independent of `P` whenever the specular term is
inactive (`dot(N, L) <= 0`); the specular term itself does depend on `P`
through the view vector `V = normalize(-P)`. -/
theorem claim_C6_directional_independence (slot : LightSlot) (N : Vec3)
    (M : MaterialInfo) (P1 P2 : Vec3) (h1 : slot.type = 1) :
    lightL slot P1 = lightL slot P2 ∧
    spotAttenuation slot P1 = spotAttenuation slot P2 ∧
    (dot3 N (lightL slot P1) ≤ 0 →
      lightContribution slot P1 N M = lightContribution slot P2 N M) := by
  have hD : ∀ P : Vec3, lightL slot P = normalize3 (neg3 (xyz3 slot.position)) :=
    fun P => by simp [lightL, h1]
  have hs : ∀ P : Vec3, spotAttenuation slot P = 1 :=
    fun P => by simp [spotAttenuation, h1]
  refine ⟨(hD P1).trans (hD P2).symm, (hs P1).trans (hs P2).symm, ?_⟩
  intro hN
  have hmax : max 0 (dot3 N (normalize3 (neg3 (xyz3 slot.position)))) = 0 :=
    max_eq_left (by rw [← hD P1]; exact hN)
  simp only [lightContribution, hD, hs, hmax, lt_irrefl, if_false]

/-- A concrete Directional light emitting along +z (stored direction
(0, 0, -1)), with full specular intensity. -/
def c6Slot : LightSlot :=
  { ambient := ⟨255, 255, 255⟩, diffuse := ⟨255, 255, 255⟩,
    specular := ⟨255, 255, 255⟩,
    position := ⟨0, 0, -1, 0⟩, axis := ⟨0, 0, -1⟩,
    aperture := 10, cutoff := 10, type := 1, enabled := 1 }

/-- A material with zero ambient and diffuse reflectances, full specular,
shininess 1, isolating the specular term. -/
def c6Mat : MaterialInfo := ⟨vzero, vzero, ⟨255, 255, 255⟩, 1⟩

/-- Counterexample for claim C6 as stated: two surface positions that agree
in everything except `P` give different contributions for the same
Directional light, because the specular term reads the view vector
`V = normalize(-P)`. At `P = (0,0,-1)` the reflection is aligned with `V`
and the specular term is (1,1,1); at `P = (-1,0,0)` it is orthogonal and
the specular term vanishes. -/
theorem claim_C6_counterexample :
    lightContribution c6Slot ⟨0, 0, -1⟩ ⟨0, 0, 1⟩ c6Mat ≠
      lightContribution c6Slot ⟨-1, 0, 0⟩ ⟨0, 0, 1⟩ c6Mat := by
  have hL1 : lightL c6Slot ⟨0, 0, -1⟩ = ⟨0, 0, 1⟩ := by
    simp [lightL, c6Slot, normalize3, div3, length3, dot3, neg3, xyz3]
  have hL2 : lightL c6Slot ⟨-1, 0, 0⟩ = ⟨0, 0, 1⟩ := by
    simp [lightL, c6Slot, normalize3, div3, length3, dot3, neg3, xyz3]
  have hs1 : spotAttenuation c6Slot ⟨0, 0, -1⟩ = 1 := by
    simp [spotAttenuation, c6Slot]
  have hs2 : spotAttenuation c6Slot ⟨-1, 0, 0⟩ = 1 := by
    simp [spotAttenuation, c6Slot]
  have h1 : lightContribution c6Slot ⟨0, 0, -1⟩ ⟨0, 0, 1⟩ c6Mat = ⟨1, 1, 1⟩ := by
    simp only [lightContribution]
    rw [hL1, hs1]
    simp [c6Slot, c6Mat, normalize3, div3, length3, dot3, sub3, neg3, smul3,
      mul3, add3, xyz3, reflect3, vzero, max_def, Real.sqrt_one, Real.one_rpow]
    norm_num
  have h2 : lightContribution c6Slot ⟨-1, 0, 0⟩ ⟨0, 0, 1⟩ c6Mat = vzero := by
    simp only [lightContribution]
    rw [hL2, hs2]
    simp [c6Slot, c6Mat, normalize3, div3, length3, dot3, sub3, neg3, smul3,
      mul3, add3, xyz3, reflect3, vzero, max_def, Real.sqrt_one, Real.one_rpow,
      Real.rpow_one]
  rw [h1, h2]
  simp [vzero, Vec3.mk.injEq]

/-- Witness for claim C6 (amended): a Directional light seen from two
different positions with a back-facing normal gives identical (zero
specular) contributions. -/
theorem claim_C6_witness :
    c6Slot.type = 1 ∧
    dot3 ⟨0, 0, -1⟩ (lightL c6Slot ⟨0, 0, -1⟩) ≤ 0 ∧
    lightContribution c6Slot ⟨0, 0, -1⟩ ⟨0, 0, -1⟩ c6Mat =
      lightContribution c6Slot ⟨-1, 0, 0⟩ ⟨0, 0, -1⟩ c6Mat := by
  have hdot : dot3 ⟨0, 0, -1⟩ (lightL c6Slot ⟨0, 0, -1⟩) ≤ 0 := by
    rw [show lightL c6Slot ⟨0, 0, -1⟩ = ⟨0, 0, 1⟩ from by
      simp [lightL, c6Slot, normalize3, div3, length3, dot3, neg3, xyz3]]
    norm_num [dot3]
  exact ⟨rfl, hdot,
    (claim_C6_directional_independence c6Slot ⟨0, 0, -1⟩ c6Mat
      ⟨0, 0, -1⟩ ⟨-1, 0, 0⟩ rfl).2.2 hdot⟩

theorem sub3_add3_left (a v : Vec3) : sub3 (add3 a v) a = v := by
  cases a
  cases v
  simp [sub3, add3]

/-- Claim C8: a mouse-drag orbit step with not-both-zero deltas leaves
`camera.at` unchanged and replaces `eye - at` and `up` by the images of
those vectors under the single rotation `rotate(ang, axisWorld)` about the
world-space orbit axis; when the computed orbit axis is nonzero (a
nondegenerate camera basis) the rotation is an isometry, so the distance
from eye to at is preserved. -/
theorem claim_C8_orbit_invariants (cam : Camera) (dx dy : ℝ)
    (hd : ¬(dx = 0 ∧ dy = 0))
    (hax : orbitAxisWorld cam dx dy ≠ vzero) :
    (rotateCameraWithMouse cam dx dy).atPt = cam.atPt ∧
    sub3 (rotateCameraWithMouse cam dx dy).eye
        (rotateCameraWithMouse cam dx dy).atPt =
      rotateApply (orbitAngle dx dy) (orbitAxisWorld cam dx dy)
        (sub3 cam.eye cam.atPt) ∧
    (rotateCameraWithMouse cam dx dy).up =
      rotateApply (orbitAngle dx dy) (orbitAxisWorld cam dx dy) cam.up ∧
    length3 (sub3 (rotateCameraWithMouse cam dx dy).eye
        (rotateCameraWithMouse cam dx dy).atPt) =
      length3 (sub3 cam.eye cam.atPt) := by
  have hcam : rotateCameraWithMouse cam dx dy =
      { cam with
        eye := add3 cam.atPt
          (rotateApply (orbitAngle dx dy) (orbitAxisWorld cam dx dy)
            (sub3 cam.eye cam.atPt)),
        up := rotateApply (orbitAngle dx dy) (orbitAxisWorld cam dx dy)
          cam.up } := by
    rw [rotateCameraWithMouse, if_neg hd]
  have heyeAt : sub3 (rotateCameraWithMouse cam dx dy).eye
      (rotateCameraWithMouse cam dx dy).atPt =
      rotateApply (orbitAngle dx dy) (orbitAxisWorld cam dx dy)
        (sub3 cam.eye cam.atPt) := by
    rw [hcam]
    exact sub3_add3_left _ _
  refine ⟨by rw [hcam], heyeAt, by rw [hcam], ?_⟩
  rw [heyeAt]
  unfold length3
  rw [rotateApply_dot_self _ _ _ (normalize3_dot_self _ hax)]

/-- A concrete camera for the orbit witness: eye on the +z axis looking at
the origin with the canonical up vector. -/
def c8Cam : Camera :=
  { eye := ⟨0, 0, 1⟩, atPt := ⟨0, 0, 0⟩, up := ⟨0, 1, 0⟩,
    fovy := 45, near := 0.1, far := 40 }

/-- Witness for claim C8: a pure horizontal drag of one pixel on `c8Cam`
has a nonzero orbit axis and satisfies all the orbit invariants. -/
theorem claim_C8_witness :
    ¬((1 : ℝ) = 0 ∧ (0 : ℝ) = 0) ∧
    orbitAxisWorld c8Cam 1 0 ≠ vzero ∧
    ((rotateCameraWithMouse c8Cam 1 0).atPt = c8Cam.atPt ∧
      length3 (sub3 (rotateCameraWithMouse c8Cam 1 0).eye
          (rotateCameraWithMouse c8Cam 1 0).atPt) =
        length3 (sub3 c8Cam.eye c8Cam.atPt)) := by
  have hd : ¬((1 : ℝ) = 0 ∧ (0 : ℝ) = 0) := by norm_num
  have hax : orbitAxisWorld c8Cam 1 0 ≠ vzero := by
    rw [show orbitAxisWorld c8Cam 1 0 = ⟨0, -1, 0⟩ from by
      simp [orbitAxisWorld, c8Cam, normalize3, div3, length3, dot3, sub3,
        neg3, cross3, smul3, add3]]
    simp [vzero, Vec3.mk.injEq]
  have h := claim_C8_orbit_invariants c8Cam 1 0 hd hax
  exact ⟨hd, hax, h.1, h.2.2.2⟩

/-- A disabled light slot with arbitrary other fields (the app defaults). -/
def c4OffLight : Light :=
  { enabled := false, type := 0, position := ⟨0, 0, 10, 1⟩, axis := ⟨0, 0, -1⟩,
    aperture := 10, cutoff := 10, ambient := ⟨80, 80, 80⟩,
    diffuse := ⟨120, 120, 120⟩, specular := ⟨200, 200, 200⟩ }

/-- An enabled Directional light with full ambient intensity. -/
def c4OnLight : Light :=
  { enabled := true, type := 1, position := ⟨0, 0, -1, 1⟩, axis := ⟨0, 0, -1⟩,
    aperture := 10, cutoff := 10, ambient := ⟨255, 255, 255⟩,
    diffuse := ⟨255, 255, 255⟩, specular := ⟨255, 255, 255⟩ }

/-- Eight CPU lights in which only index 3 is enabled, so
`u_n_lights = 4` - a configuration the application supports (its GUI in
part_004 exposes all eight lights). -/
def c4Lights : List Light :=
  [c4OffLight, c4OffLight, c4OffLight, c4OnLight,
   c4OffLight, c4OffLight, c4OffLight, c4OffLight]

/-- A material with full ambient reflectance and zero diffuse and specular
reflectances, so the enabled light contributes exactly (1,1,1). -/
def c4Mat : MaterialInfo := ⟨⟨255, 255, 255⟩, vzero, vzero, 1⟩

/-- Claim C4: evaluation of both shading paths at the failing input. The
Gouraud vertex shader loops over only its `MAX_LIGHTS = 3` slots and
returns black, while the Phong fragment shader loops over all 8 slots and
returns white, for identical light, material and camera state - so the two
paths do not agree at the vertex for a supported number of lights. -/
theorem claim_C4_paths_diverge :
    gouraudPathColor c4Lights ⟨0, 0, 0⟩ ⟨0, 0, 1⟩ c4Mat = vzero ∧
    phongPathColor c4Lights ⟨0, 0, 0⟩ ⟨0, 0, 1⟩ c4Mat = ⟨1, 1, 1⟩ := by
  have hn : computeNLights c4Lights = 4 := by
    norm_num [computeNLights, nLightsAux, c4Lights, c4OffLight, c4OnLight]
  have he0 : (uploadSlot c4OffLight).enabled = 0 := rfl
  have he1 : (uploadSlot c4OnLight).enabled = 1 := rfl
  have hs : spotAttenuation (uploadSlot c4OnLight) ⟨0, 0, 0⟩ = 1 := by
    simp [spotAttenuation, uploadSlot, c4OnLight]
  have hc : lightContribution (uploadSlot c4OnLight) ⟨0, 0, 0⟩ ⟨0, 0, 1⟩ c4Mat
      = ⟨1, 1, 1⟩ := by
    simp only [lightContribution]
    rw [hs]
    simp [uploadSlot, c4OnLight, c4Mat, div3, mul3, smul3, add3, vzero]
  constructor
  · simp only [gouraudPathColor]
    rw [hn]
    simp only [c4Lights, List.map_cons, List.map_nil, List.take_succ_cons,
      List.take_zero]
    simp only [phongLighting, phongAux]
    norm_num [he0, add3, vzero]
  · simp only [phongPathColor]
    rw [hn]
    simp only [c4Lights, List.map_cons, List.map_nil]
    simp only [phongLighting, phongAux]
    norm_num [he0, he1, hc, add3, vzero]

/-- Witness for claim C10: the concrete spotlight `c2Slot` has cutoff 10
and its attenuation factor at a concrete fragment lies in [0, 1]. -/
theorem claim_C10_witness :
    (0 : ℝ) ≤ c2Slot.cutoff ∧
    (0 ≤ spotAttenuation c2Slot ⟨-1, 0, 0⟩ ∧
      spotAttenuation c2Slot ⟨-1, 0, 0⟩ ≤ 1) :=
  ⟨by norm_num [c2Slot],
   claim_C10_factor_in_unit_interval c2Slot ⟨-1, 0, 0⟩ (by norm_num [c2Slot])⟩
